import Mathlib

/-!
Verification of the sharding/hashing layer of go-ttlcache (sharded.go).

Conventions of the embedding:
* Go `uint32` arithmetic is modelled on `Nat` with explicit `% 4294967296`
  (= 2^32) where the source can overflow.
* A Go `byte` is modelled as a `Nat`; the conversion `uint32(b)` of a byte
  is modelled as `b % 256` (a value of Go type `byte` always lies below 256).
* `time.Duration` (an `int64`) is modelled as `Int`; absolute expiration
  instants are modelled as `Option Nat` (`none` = never expires), following
  the data model of the specification, since the single-shard cache source
  is external to this file's repository slice.
* Randomness and stderr output of `newShardedCache` are modelled by passing
  the drawn values in explicitly and returning a `warned` flag.
-/

namespace GoTtlcache

/-- Go bucket-hash key values, partitioned exactly as the `switch key := any(k).(type)`
dispatch in `djb33` (sharded.go) partitions them: a `string` key (carried as its
byte sequence), a `[]byte` key, or a key of any other comparable type (the
`Nat` tag distinguishes distinct such keys as map keys; the hash dispatch
ignores it, leaving `kRaw` nil). -/
inductive GoKey where
  | str : List Nat → GoKey
  | bytes : List Nat → GoKey
  | other : Nat → GoKey
deriving DecidableEq

/-- The byte sequence `kRaw` that `djb33` extracts from a key: the bytes of a
string key, a byte-slice key itself, and the nil (empty) slice for every other
key type. -/
def keyBytes : GoKey → List Nat
  | GoKey.str s => s
  | GoKey.bytes b => b
  | GoKey.other _ => []

/-- One hash update of `djb33`: `d = (d * 33) ^ uint32(b)` in wrapping
uint32 arithmetic (`b` is a Go byte, hence the `% 256`). -/
def step (d b : Nat) : Nat := ((d * 33) % 4294967296) ^^^ (b % 256)

/-- The hand-unrolled main loop of `djb33` (sharded.go):

    for i < l-4 {
      d = (d * 33) ^ uint32(kRaw[i]); ... ^ uint32(kRaw[i+3]); i += 4
    }

The loop state `(d, i)` is represented as `(d, kRaw.drop i)`: the guard
`i < l-4` (uint32 arithmetic, guarded by `l >= 4`) holds exactly when more
than 4 bytes remain, i.e. the remaining suffix matches five cons cells, and
`kRaw[i] .. kRaw[i+3]` are the first four bytes of that suffix. The returned
pair is the final `d` together with the remaining suffix `kRaw.drop i`. -/
def djb33Loop (d : Nat) : List Nat → Nat × List Nat
  | b0 :: b1 :: b2 :: b3 :: b4 :: rest =>
      djb33Loop (step (step (step (step d b0) b1) b2) b3) (b4 :: rest)
  | bs => (d, bs)

/-- The trailing-bytes `switch l - i` of `djb33` (sharded.go): the scrutinee
`l - i` is the length of the remaining suffix; `case 1` performs no update,
`case 2` updates with `kRaw[i]`, `case 3` with `kRaw[i]`, `kRaw[i+1]`, and
`case 4` with `kRaw[i]`, `kRaw[i+1]`, `kRaw[i+2]`; any other remaining length
(only 0 can occur) falls through with no update. -/
def djb33Tail (d : Nat) : List Nat → Nat
  | [_] => d
  | [t0, _] => step d t0
  | [t0, t1, _] => step (step d t0) t1
  | [t0, t1, t2, _] => step (step (step d t0) t1) t2
  | _ => d

/-- The `djb33` hash of sharded.go applied to an already-extracted byte
sequence: `d = 5381 + seed + l` (wrapping uint32), the unrolled loop run
only under its `l >= 4` guard, the trailing-byte switch, and the final
upper-bit mix `d ^ (d >> 16)`. -/
def djb33Bytes (seed : Nat) (kRaw : List Nat) : Nat :=
  let l := kRaw.length
  let d0 := (5381 + seed + l) % 4294967296
  let r := if 4 ≤ l then djb33Loop d0 kRaw else (d0, kRaw)
  let d2 := djb33Tail r.1 r.2
  d2 ^^^ (d2 >>> 16)

/-- `djb33(seed, k)` of sharded.go: extract `kRaw` by the type switch, then
hash the bytes. -/
def djb33 (seed : Nat) (k : GoKey) : Nat :=
  djb33Bytes seed (keyBytes k)

/-- The specification's reference algorithm for the hash, written from the
spec's words (not from the source): start with `d = 5381 + seed + len(key)`;
apply `d = (d * 33) XOR b` for each byte of every full 4-byte group in order;
then apply the identical update for each of the remaining 0-3 trailing bytes,
except that a tail of length exactly 1 contributes no per-byte update; finish
with `d = d XOR (d >> 16)`, all in wrapping 32-bit arithmetic. -/
def djb33SpecRef (seed : Nat) (kRaw : List Nat) : Nat :=
  let l := kRaw.length
  let d0 := (5381 + seed + l) % 4294967296
  let groups := kRaw.take (4 * (l / 4))
  let tail := kRaw.drop (4 * (l / 4))
  let d1 := groups.foldl step d0
  let d2 := if tail.length = 1 then d1 else tail.foldl step d1
  d2 ^^^ (d2 >>> 16)

/-- Modelled from the spec: a cache entry is a value together with an
absolute expiration instant, or `none` for an entry that never expires
(the single-shard cache source is an external collaborator of this slice). -/
structure Item (V : Type) where
  object : V
  expiration : Option Nat

/-- A single shard's entry table, as an association list from keys to items
(the Go `map[K]Item[V]` owned by one `cache` shard). -/
abbrev Shard (V : Type) := List (GoKey × Item V)

/-- Modelled from the spec: an entry with a concrete expiration instant is
expired once the current time is ≥ that instant; a `none` expiration never
expires. -/
def isExpired {V : Type} (now : Nat) (it : Item V) : Bool :=
  match it.expiration with
  | none => false
  | some t => decide (t ≤ now)

/-- Modelled from the spec: the single-shard `Set` — unconditional
insert/overwrite of the key with the given value and expiration. -/
def shardSet {V : Type} (k : GoKey) (v : V) (e : Option Nat) (s : Shard V) : Shard V :=
  (k, ⟨v, e⟩) :: s.filter (fun p => p.1 != k)

/-- Modelled from the spec: the single-shard `Get` — lazy expiry check; an
expired-but-not-purged entry reports not-found (`none`). -/
def shardGet {V : Type} (now : Nat) (k : GoKey) (s : Shard V) : Option V :=
  match s.find? (fun p => p.1 == k) with
  | none => none
  | some p => if isExpired now p.2 then none else some p.2.object

/-- Modelled from the spec: the single-shard `Add` — insert only if the key
is absent or expired; `none` models the "key exists" error. -/
def shardAdd {V : Type} (now : Nat) (k : GoKey) (v : V) (e : Option Nat) (s : Shard V) :
    Option (Shard V) :=
  match shardGet now k s with
  | some _ => none
  | none => some (shardSet k v e s)

/-- Modelled from the spec: the single-shard `Replace` — overwrite only if a
live (unexpired) entry exists; `none` models the "key not found" error. -/
def shardReplace {V : Type} (now : Nat) (k : GoKey) (v : V) (e : Option Nat) (s : Shard V) :
    Option (Shard V) :=
  match shardGet now k s with
  | some _ => some (shardSet k v e s)
  | none => none

/-- Modelled from the spec: the single-shard `Delete` — unconditional
removal, no error on a missing key. -/
def shardDelete {V : Type} (k : GoKey) (s : Shard V) : Shard V :=
  s.filter (fun p => p.1 != k)

/-- Modelled from the spec: the single-shard `DeleteExpired` — purge all
expired entries from this shard only. -/
def shardDeleteExpired {V : Type} (now : Nat) (s : Shard V) : Shard V :=
  s.filter (fun p => !isExpired now p.2)

/-- Modelled from the spec: the single-shard `Items` — full snapshot of this
shard's table (may include stale-expired entries). -/
def shardItems {V : Type} (s : Shard V) : Shard V := s

/-- Modelled from the spec: the single-shard `Flush` — remove all entries. -/
def shardFlush {V : Type} (_ : Shard V) : Shard V := []

/-- The `shardedCache` struct of sharded.go: `seed uint32`, `m uint32`
(shard count), `cs []*cache` (the shard table). `defaultExpiration` is the
per-shard default stored into every shard at construction (identical across
shards, carried once here); `janitor` models the `*shardedJanitor` pointer
by its interval (`none` = nil). -/
structure ShardedCache (V : Type) where
  seed : Nat
  m : Nat
  cs : List (Shard V)
  defaultExpiration : Int
  janitor : Option Int

/-- The index computed by `bucket` (sharded.go): `djb33(seed, k) % m`. -/
def ShardedCache.bucketIdx {V : Type} (sc : ShardedCache V) (k : GoKey) : Nat :=
  djb33 sc.seed k % sc.m

/-- `bucket` (sharded.go): `sc.cs[djb33(seed, k) % sc.m]`; the list read is
modelled with `getD` (construction guarantees the index is in range since
`m` equals the length of `cs`). -/
def ShardedCache.bucket {V : Type} (sc : ShardedCache V) (k : GoKey) : Shard V :=
  sc.cs.getD (sc.bucketIdx k) []

/-- Writing back the bucket shard of `k`: Go mutates the selected shard in
place through its pointer, modelled by replacing the list element at the
bucket index. -/
def ShardedCache.setBucket {V : Type} (sc : ShardedCache V) (k : GoKey) (s : Shard V) :
    ShardedCache V :=
  { sc with cs := sc.cs.set (sc.bucketIdx k) s }

/-- `Set` (sharded.go): `sc.bucket(k).Set(k, x, d)`. -/
def ShardedCache.Set {V : Type} (sc : ShardedCache V) (k : GoKey) (v : V) (e : Option Nat) :
    ShardedCache V :=
  sc.setBucket k (shardSet k v e (sc.bucket k))

/-- `Add` (sharded.go): `return sc.bucket(k).Add(k, x, d)`; the returned
Bool is true on success, false when the shard reports the key-exists
error. -/
def ShardedCache.Add {V : Type} (sc : ShardedCache V) (now : Nat) (k : GoKey) (v : V)
    (e : Option Nat) : ShardedCache V × Bool :=
  match shardAdd now k v e (sc.bucket k) with
  | some s => (sc.setBucket k s, true)
  | none => (sc, false)

/-- `Replace` (sharded.go): `return sc.bucket(k).Replace(k, x, d)`; the
returned Bool is true on success, false when the shard reports the
key-not-found error. -/
def ShardedCache.Replace {V : Type} (sc : ShardedCache V) (now : Nat) (k : GoKey) (v : V)
    (e : Option Nat) : ShardedCache V × Bool :=
  match shardReplace now k v e (sc.bucket k) with
  | some s => (sc.setBucket k s, true)
  | none => (sc, false)

/-- `Get` (sharded.go): `return sc.bucket(k).Get(k)`. -/
def ShardedCache.Get {V : Type} (sc : ShardedCache V) (now : Nat) (k : GoKey) : Option V :=
  shardGet now k (sc.bucket k)

/-- `Delete` (sharded.go): `sc.bucket(k).Delete(k)`. -/
def ShardedCache.Delete {V : Type} (sc : ShardedCache V) (k : GoKey) : ShardedCache V :=
  sc.setBucket k (shardDelete k (sc.bucket k))

/-- `DeleteExpired` (sharded.go): `for _, v := range sc.cs { v.DeleteExpired() }`. -/
def ShardedCache.DeleteExpired {V : Type} (sc : ShardedCache V) (now : Nat) : ShardedCache V :=
  { sc with cs := sc.cs.map (shardDeleteExpired now) }

/-- `Items` (sharded.go): one snapshot per shard, in router order. -/
def ShardedCache.Items {V : Type} (sc : ShardedCache V) : List (Shard V) :=
  sc.cs.map shardItems

/-- `Flush` (sharded.go): `for _, v := range sc.cs { v.Flush() }`. -/
def ShardedCache.Flush {V : Type} (sc : ShardedCache V) : ShardedCache V :=
  { sc with cs := sc.cs.map shardFlush }

/-- Outcome of the `crypto/rand` read in `newShardedCache` (sharded.go),
passed in explicitly: `ok v` models `rand.Int(rand.Reader, MaxUint32)`
succeeding with value `v`; `err` models the read failing. -/
inductive CryptoResult where
  | ok : Nat → CryptoResult
  | err : CryptoResult
deriving DecidableEq

/-- Whether the crypto read failed. -/
def CryptoResult.isErr : CryptoResult → Bool
  | CryptoResult.ok _ => false
  | CryptoResult.err => true

/-- Result of constructing a sharded cache: the cache itself, plus whether
the stderr warning about a degraded (non-cryptographic) seed was written. -/
structure ConstructResult (V : Type) where
  cache : ShardedCache V
  warned : Bool

/-- `newShardedCache` (sharded.go): draw the seed once from crypto/rand; on
error, write the WARNING to stderr (`warned := true`) and fall back to
`insecurerand.Uint32()` (its drawn value is the `insecureSeed` parameter);
on success the seed is `uint32(rnd.Uint64())`, i.e. the drawn value mod 2^32.
Then allocate `n` empty shards, each with the given default expiration.
Construction never fails. -/
def newShardedCache (V : Type) (cr : CryptoResult) (insecureSeed : Nat) (n : Nat) (de : Int) :
    ConstructResult V :=
  let seed := match cr with
    | CryptoResult.ok v => v % 4294967296
    | CryptoResult.err => insecureSeed
  { cache :=
      { seed := seed
        m := n % 4294967296
        cs := List.replicate n []
        defaultExpiration := de
        janitor := none }
    warned := cr.isErr }

/-- The lifecycle state of the sharded janitor's `Run` goroutine
(sharded.go): `running` while the select loop is alive (and therefore ready
to receive on the unbuffered `stop` channel), `stopped` once `Run` has
returned (no receiver on `stop` remains, ever). -/
inductive JanitorState where
  | running : JanitorState
  | stopped : JanitorState
deriving DecidableEq

/-- Whether a receive on the janitor's `stop` channel is still possible:
`Run`'s select loop is the only receiver, and it returns permanently after
receiving once. -/
def janitorReceiving : JanitorState → Bool
  | JanitorState.running => true
  | JanitorState.stopped => false

/-- One iteration of `Run`'s select loop (sharded.go): a timer tick performs
`sc.DeleteExpired()` and keeps the loop running; a receive on `stop` makes
`Run` return, after which the janitor is stopped for good. -/
inductive JanitorEvent where
  | tick : Nat → JanitorEvent
  | stopReceived : JanitorEvent

/-- The state transition of one `Run` select iteration. -/
def janitorRunStep {V : Type} (sc : ShardedCache V) :
    JanitorEvent → ShardedCache V × JanitorState
  | JanitorEvent.tick now => (sc.DeleteExpired now, JanitorState.running)
  | JanitorEvent.stopReceived => (sc, JanitorState.stopped)

/-- `stopShardedJanitor` (sharded.go): `sc.janitor.stop <- true`. The stop
channel is unbuffered, so the send completes exactly when the `Run` loop is
still receiving; `some (newState, sc)` models a completed send (the janitor
transitions to stopped, the cache untouched), `none` models the send
blocking forever (no receiver remains). -/
def stopShardedJanitor {V : Type} (j : JanitorState) (sc : ShardedCache V) :
    Option (JanitorState × ShardedCache V) :=
  if janitorReceiving j then some (JanitorState.stopped, sc) else none

/-- `runShardedJanitor` (sharded.go): allocate a janitor with the given
interval, store it in the cache, and launch its `Run` goroutine (the
returned Bool records that a background sweep task was started). -/
def runShardedJanitor {V : Type} (sc : ShardedCache V) (ci : Int) : ShardedCache V × Bool :=
  ({ sc with janitor := some ci }, true)

/-- Outcome of `unexportedNewSharded`: the constructed cache, the degraded
seed warning flag, whether a janitor `Run` goroutine was started, and
whether the `runtime.SetFinalizer(SC, stopShardedJanitor)` call was made. -/
structure SCOutcome (V : Type) where
  cache : ShardedCache V
  warned : Bool
  janitorStarted : Bool
  finalizerRegistered : Bool

/-- `unexportedNewSharded` (sharded.go): a zero default expiration is
replaced by -1, the sharded cache is constructed, and only under
`cleanupInterval > 0` is the janitor created and started and the finalizer
registered. -/
def unexportedNewSharded (V : Type) (cr : CryptoResult) (insecureSeed : Nat)
    (defaultExpiration cleanupInterval : Int) (shards : Nat) : SCOutcome V :=
  let de := if defaultExpiration = 0 then -1 else defaultExpiration
  let r := newShardedCache V cr insecureSeed shards de
  if 0 < cleanupInterval then
    let rj := runShardedJanitor r.cache cleanupInterval
    { cache := rj.1
      warned := r.warned
      janitorStarted := rj.2
      finalizerRegistered := true }
  else
    { cache := r.cache
      warned := r.warned
      janitorStarted := false
      finalizerRegistered := false }

/-- A concrete two-shard cache (seed 0, both shards empty, no janitor),
used to evaluate the theorems below on explicit inputs. -/
def sampleCache : ShardedCache Nat :=
  { seed := 0, m := 2, cs := [[], []], defaultExpiration := -1, janitor := none }

lemma djb33Tail_short (d : Nat) (bs : List Nat) (h : bs.length ≤ 4) :
    djb33Tail d bs = bs.dropLast.foldl step d := by
  match bs with
  | [] => rfl
  | [_] => rfl
  | [_, _] => rfl
  | [_, _, _] => rfl
  | [_, _, _, _] => rfl
  | _ :: _ :: _ :: _ :: _ :: _ => simp at h

lemma djb33Loop_tail_eq (d : Nat) (bs : List Nat) :
    djb33Tail (djb33Loop d bs).1 (djb33Loop d bs).2 = bs.dropLast.foldl step d := by
  induction d, bs using djb33Loop.induct with
  | case1 d b0 b1 b2 b3 b4 rest ih =>
    rw [djb33Loop, ih]
    simp [List.dropLast, List.foldl]
  | case2 d bs h =>
    have hlen : bs.length ≤ 4 := by
      match bs with
      | [] => simp
      | [_] => simp
      | [_, _] => simp
      | [_, _, _] => simp
      | [_, _, _, _] => simp
      | b0 :: b1 :: b2 :: b3 :: b4 :: rest => exact absurd rfl (h b0 b1 b2 b3 b4 rest)
    rw [djb33Loop]
    · exact djb33Tail_short d bs hlen
    · exact h

lemma djb33Bytes_eq_dropLast (seed : Nat) (kRaw : List Nat) :
    djb33Bytes seed kRaw =
      kRaw.dropLast.foldl step ((5381 + seed + kRaw.length) % 4294967296) ^^^
        (kRaw.dropLast.foldl step ((5381 + seed + kRaw.length) % 4294967296) >>> 16) := by
  simp only [djb33Bytes]
  split
  · rw [djb33Loop_tail_eq]
  · rename_i h
    dsimp only
    rw [djb33Tail_short _ _ (by omega)]

lemma djb33Bytes_last_irrelevant (seed : Nat) (bs : List Nat) (b1 b2 : Nat) :
    djb33Bytes seed (bs ++ [b1]) = djb33Bytes seed (bs ++ [b2]) := by
  rw [djb33Bytes_eq_dropLast, djb33Bytes_eq_dropLast]
  simp [List.dropLast_concat]

lemma getD_set_ne {α : Type} (l : List α) (i j : Nat) (x d : α) (h : i ≠ j) :
    (l.set i x).getD j d = l.getD j d := by
  simp [List.getD_eq_getElem?_getD, List.getElem?_set_ne h]

lemma getD_map_nil {α V : Type} (f : α → Shard V) (hf : ∀ a, f a = []) :
    ∀ (l : List α) (j : Nat), (l.map f).getD j [] = []
  | [], j => by simp
  | a :: t, 0 => by simpa using hf a
  | a :: t, j + 1 => by simpa using getD_map_nil f hf t j

/-- C1, counterexample: with seed 0 and the two-byte key [1, 2], the
implemented hash differs from the specification's reference algorithm (for
a 2-byte key the code applies the update only to the first byte, while the
reference algorithm, whose tail has length 2 ≠ 1, applies it to both). -/
theorem djb33_differs_from_spec_reference :
    djb33 0 (GoKey.bytes [1, 2]) ≠ djb33SpecRef 0 [1, 2] := by decide

/-- C1 (amended): for every seed and every key, djb33 equals: start with
d = 5381 + seed + len(key); apply d = (d * 33) XOR b, in order, for every
byte b of the key EXCEPT the final one (the unrolled loop runs only while
more than 4 bytes remain, and each trailing-bytes case of length t updates
with only its first t - 1 bytes, so the key's last byte never enters the
hash); finish with d = d XOR (d >> 16), in wrapping 32-bit arithmetic. -/
theorem djb33_eq_foldl_except_last (seed : Nat) (k : GoKey) :
    djb33 seed k =
      (keyBytes k).dropLast.foldl step ((5381 + seed + (keyBytes k).length) % 4294967296) ^^^
        ((keyBytes k).dropLast.foldl step
          ((5381 + seed + (keyBytes k).length) % 4294967296) >>> 16) :=
  djb33Bytes_eq_dropLast seed (keyBytes k)

/-- C2: two keys (strings or byte sequences) of the same length n ≥ 1 that
differ only in their final byte receive the same djb33 hash for every seed,
and bucket therefore routes them to the same shard. -/
theorem djb33_last_byte_collision {V : Type} (sc : ShardedCache V) (k1 k2 : GoKey)
    (bs : List Nat) (b1 b2 : Nat)
    (h1 : keyBytes k1 = bs ++ [b1]) (h2 : keyBytes k2 = bs ++ [b2]) :
    djb33 sc.seed k1 = djb33 sc.seed k2 ∧
      sc.bucketIdx k1 = sc.bucketIdx k2 ∧ sc.bucket k1 = sc.bucket k2 := by
  have hd : djb33 sc.seed k1 = djb33 sc.seed k2 := by
    unfold djb33
    rw [h1, h2]
    exact djb33Bytes_last_irrelevant sc.seed bs b1 b2
  refine ⟨hd, ?_, ?_⟩ <;> simp [ShardedCache.bucketIdx, ShardedCache.bucket, hd]

/-- C2, witness: the two-byte string keys [1, 2] and [1, 3] collide in the
sample two-shard cache. -/
theorem djb33_last_byte_collision_witness :
    djb33 sampleCache.seed (GoKey.str [1, 2]) = djb33 sampleCache.seed (GoKey.str [1, 3]) ∧
      sampleCache.bucketIdx (GoKey.str [1, 2]) = sampleCache.bucketIdx (GoKey.str [1, 3]) ∧
      sampleCache.bucket (GoKey.str [1, 2]) = sampleCache.bucket (GoKey.str [1, 3]) :=
  djb33_last_byte_collision sampleCache (GoKey.str [1, 2]) (GoKey.str [1, 3]) [1] 2 3 rfl rfl

/-- C3: for a router with shard count m ≥ 1, bucket is a pure deterministic
function of (seed, key, m): equal keys give the same shard, the bucket
index is djb33(seed, k) mod m, and the chosen shard is the one stored at
that index. -/
theorem bucket_deterministic {V : Type} (sc : ShardedCache V) (_hm : 1 ≤ sc.m)
    (k1 k2 : GoKey) (hk : k1 = k2) :
    sc.bucket k1 = sc.bucket k2 ∧
      sc.bucketIdx k1 = djb33 sc.seed k1 % sc.m ∧
      sc.bucket k1 = sc.cs.getD (djb33 sc.seed k1 % sc.m) [] := by
  subst hk
  exact ⟨rfl, rfl, rfl⟩

/-- C3, witness: evaluated on the sample cache at the one-byte key [97]. -/
theorem bucket_deterministic_witness :
    1 ≤ sampleCache.m ∧
      (sampleCache.bucket (GoKey.str [97]) = sampleCache.bucket (GoKey.str [97]) ∧
        sampleCache.bucketIdx (GoKey.str [97]) =
          djb33 sampleCache.seed (GoKey.str [97]) % sampleCache.m ∧
        sampleCache.bucket (GoKey.str [97]) =
          sampleCache.cs.getD (djb33 sampleCache.seed (GoKey.str [97]) % sampleCache.m) []) :=
  ⟨by decide, bucket_deterministic sampleCache (by decide) (GoKey.str [97]) (GoKey.str [97]) rfl⟩

/-- C4: every keyed operation (Set, Get, Delete, Add, Replace) touches only
the shard selected by bucket(k): each mutating operation leaves the entry
table at every other index j unchanged, and Get's result is a function of
the bucket shard alone. -/
theorem keyed_ops_shard_isolation {V : Type} (sc : ShardedCache V) (k : GoKey) (v : V)
    (e : Option Nat) (now j : Nat) (hj : j ≠ sc.bucketIdx k) :
    (sc.Set k v e).cs.getD j [] = sc.cs.getD j [] ∧
      (sc.Add now k v e).1.cs.getD j [] = sc.cs.getD j [] ∧
      (sc.Replace now k v e).1.cs.getD j [] = sc.cs.getD j [] ∧
      (sc.Delete k).cs.getD j [] = sc.cs.getD j [] ∧
      sc.Get now k = shardGet now k (sc.cs.getD (sc.bucketIdx k) []) := by
  have hset : ∀ s : Shard V, (sc.setBucket k s).cs.getD j [] = sc.cs.getD j [] := fun s =>
    getD_set_ne sc.cs (sc.bucketIdx k) j s [] (Ne.symm hj)
  refine ⟨hset _, ?_, ?_, hset _, rfl⟩
  · unfold ShardedCache.Add
    cases shardAdd now k v e (sc.bucket k) with
    | none => rfl
    | some s => exact hset s
  · unfold ShardedCache.Replace
    cases shardReplace now k v e (sc.bucket k) with
    | none => rfl
    | some s => exact hset s

/-- C4, witness: in the sample cache the key [97] routes to shard 0, and
the operations leave shard 1 unchanged. -/
theorem keyed_ops_shard_isolation_witness :
    (1 : Nat) ≠ sampleCache.bucketIdx (GoKey.str [97]) ∧
      ((sampleCache.Set (GoKey.str [97]) 5 none).cs.getD 1 [] = sampleCache.cs.getD 1 [] ∧
        (sampleCache.Add 0 (GoKey.str [97]) 5 none).1.cs.getD 1 [] = sampleCache.cs.getD 1 [] ∧
        (sampleCache.Replace 0 (GoKey.str [97]) 5 none).1.cs.getD 1 [] =
          sampleCache.cs.getD 1 [] ∧
        (sampleCache.Delete (GoKey.str [97])).cs.getD 1 [] = sampleCache.cs.getD 1 [] ∧
        sampleCache.Get 0 (GoKey.str [97]) =
          shardGet 0 (GoKey.str [97])
            (sampleCache.cs.getD (sampleCache.bucketIdx (GoKey.str [97])) [])) :=
  ⟨by decide, keyed_ops_shard_isolation sampleCache (GoKey.str [97]) 5 none 0 1 (by decide)⟩

/-- C5: after Flush, every shard's entry table is empty: a subsequent Items
returns an empty table at every shard index, whatever the entries and their
expirations were. -/
theorem flush_empties_all_shards {V : Type} (sc : ShardedCache V) (j : Nat) :
    (sc.Flush).Items.getD j [] = [] ∧ (sc.Flush).cs.getD j [] = [] := by
  constructor
  · show ((sc.cs.map shardFlush).map shardItems).getD j [] = []
    rw [List.map_map]
    exact getD_map_nil _ (fun _ => rfl) sc.cs j
  · exact getD_map_nil _ (fun _ => rfl) sc.cs j

/-- C6: a key of any type other than string or byte slice is hashed as the
empty byte sequence: its hash equals the hash of the empty key, every two
such keys hash identically, and they all land in one and the same bucket,
determined solely by the seed and the shard count. -/
theorem other_key_types_collide {V : Type} (sc : ShardedCache V) (id1 id2 : Nat) :
    djb33 sc.seed (GoKey.other id1) = djb33Bytes sc.seed [] ∧
      djb33 sc.seed (GoKey.other id1) = djb33 sc.seed (GoKey.other id2) ∧
      sc.bucketIdx (GoKey.other id1) = djb33Bytes sc.seed [] % sc.m ∧
      sc.bucketIdx (GoKey.other id1) = sc.bucketIdx (GoKey.other id2) :=
  ⟨rfl, rfl, rfl, rfl⟩

/-- C7: for every seed, the hash of the empty key is the initial value
d = 5381 + seed + 0 passed only through the final mixing step
d XOR (d >> 16), with no per-byte updates, in wrapping 32-bit
arithmetic. -/
theorem djb33_empty_key (seed : Nat) :
    djb33 seed (GoKey.str []) =
      ((5381 + seed) % 4294967296) ^^^ (((5381 + seed) % 4294967296) >>> 16) := by
  simp [djb33, djb33Bytes, keyBytes, djb33Tail, djb33Loop]

/-- C8: the sharded-cache constructor draws the seed once from the crypto
source; construction always returns a cache with all n shards; when the
crypto read fails it falls back to the insecure seed and raises the stderr
warning; when it succeeds there is no warning and the drawn value (reduced
to uint32) becomes the seed. -/
theorem newShardedCache_seed_fallback (V : Type) (cr : CryptoResult) (insec n : Nat)
    (de : Int) :
    (newShardedCache V cr insec n de).cache.cs.length = n ∧
      (newShardedCache V cr insec n de).warned = cr.isErr ∧
      ((newShardedCache V CryptoResult.err insec n de).cache.seed = insec ∧
        (newShardedCache V CryptoResult.err insec n de).warned = true) ∧
      (∀ v : Nat,
        (newShardedCache V (CryptoResult.ok v) insec n de).cache.seed = v % 4294967296 ∧
          (newShardedCache V (CryptoResult.ok v) insec n de).warned = false) :=
  ⟨by simp [newShardedCache], rfl, ⟨rfl, rfl⟩, fun _ => ⟨rfl, rfl⟩⟩

/-- C9: the janitor is created (stored in the cache), its background sweep
goroutine started, and the finalizer-triggered shutdown registered exactly
when the cleanup interval is positive; with a zero or negative interval
none of these happen. -/
theorem janitor_iff_positive_interval (V : Type) (cr : CryptoResult) (insec : Nat)
    (de ci : Int) (shards : Nat) :
    (unexportedNewSharded V cr insec de ci shards).cache.janitor
        = (if 0 < ci then some ci else none) ∧
      (unexportedNewSharded V cr insec de ci shards).janitorStarted = decide (0 < ci) ∧
      (unexportedNewSharded V cr insec de ci shards).finalizerRegistered = decide (0 < ci) := by
  unfold unexportedNewSharded runShardedJanitor
  by_cases h : 0 < ci <;> simp [h, newShardedCache]

/-- C10, counterexample: signaling the janitor a second time, after it has
already stopped, blocks the signaling caller: the send on the unbuffered
stop channel finds no receiver (Run has returned), modelled by
stopShardedJanitor returning none at the concrete stopped state. -/
theorem second_stop_signal_blocks :
    stopShardedJanitor JanitorState.stopped sampleCache = none := rfl

/-- C10 (amended): the janitor's stop signal is one-shot: the first signal,
sent while the janitor is running, completes, stops the janitor, and leaves
the cache state untouched; a second signal, sent after the janitor has
stopped, finds no receiver on the unbuffered stop channel and blocks the
signaling caller forever; in neither case is any cache state corrupted. -/
theorem stop_signal_semantics {V : Type} (sc : ShardedCache V) :
    stopShardedJanitor JanitorState.running sc = some (JanitorState.stopped, sc) ∧
      stopShardedJanitor JanitorState.stopped sc = none :=
  ⟨rfl, rfl⟩

end GoTtlcache
